import Mathlib

/-!
Verification of the export/serialization engine of the portable-spreadsheet
repository (`portable_spreadsheet/serialization.py`).  The Python class
`Serialization` is embedded shallowly: its abstract grid interface
(`shape`, `_get_cell_at`, `cell_indices`, `_get_variables`) becomes the
`Sheet` structure, Python dictionaries become association lists with
last-write-wins insertion, and the warning logger together with the cell
reads become an explicit event trace per encoder.
-/

namespace PortableSpreadsheet

/-- Raw cell values (`Cell.value` in Python is `Optional[object]`; the
values exercised by the repository are numbers and strings). -/
inductive Scalar where
  | i : Int → Scalar
  | s : String → Scalar
deriving DecidableEq, Repr

/-- `cell_type.py`: a cell is either a plain value or a computational cell. -/
inductive CellType where
  | value_only
  | computational
deriving DecidableEq, Repr

/-- The read-only view of a cell used by `Serialization`
(`value`, `parse`, `description`, `cell_type`, `excel_format`,
`constructing_words.words`). -/
structure Cell where
  value : Option Scalar
  parse : String → String
  description : Option String
  cell_type : CellType
  excel_format : List (String × String)
  constructing_words : String → String

/-- The index metadata consumed from `CellIndices`: full label arrays,
optional help-text arrays, the language list and the label-append flag. -/
structure CellIndices where
  rows_labels : List String
  columns_labels : List String
  rows_help_text : Option (List String)
  columns_help_text : Option (List String)
  languages : List String
  excel_append_labels : Bool

/-- The abstract grid view of `Serialization`: `shape` is the exported
shape `(nrows, ncols)`, `cell` is `_get_cell_at`, plus the export offset,
the subset flag and the sheet variables (`_get_variables().variables_dict`
as a list of `(name, value, description)`). -/
structure Sheet where
  nrows : Nat
  ncols : Nat
  cell : Nat → Nat → Cell
  ci : CellIndices
  export_offset : Nat × Nat
  export_subset : Bool
  variables_dict : List (String × Scalar × String)

/-- The subset data-loss warning of `log_export_subset_warning_if_needed`. -/
def subsetMsg : String :=
  "Slice is being exported => there is a possibility of data losses."

/-- The numeric-coercion warning of `to_numpy`. -/
def coercionMsg : String :=
  "Some values in the sheet are not numbers, the nan value is set instead."

/-- Observable events of one encoder call: a message sent to the warning
logger, a cell read through `_get_cell_at`, or the acquisition of the
`xlsxwriter.Workbook` resource. -/
inductive Ev where
  | warn : String → Ev
  | read : Nat → Nat → Ev
  | openwb : Ev
deriving DecidableEq, Repr

/-- Whether an event is a cell read. -/
def isRead : Ev → Bool
  | Ev.read _ _ => true
  | _ => false

/-- Events produced by `log_export_subset_warning_if_needed`. -/
def subsetPre (s : Sheet) : List Ev :=
  if s.export_subset then [Ev.warn subsetMsg] else []

/-- Row-major cell reads over the exported shape, the traversal shared by
most encoders. -/
def rowMajorReads (s : Sheet) : List Ev :=
  (List.range s.nrows).flatMap fun r =>
    (List.range s.ncols).map fun c => Ev.read r c

/-- Python `str.replace(' ', repl)` applied to a label. -/
def replaceSpaces (str repl : String) : String :=
  ⟨str.data.flatMap fun c => if c = ' ' then repl.data else [c]⟩

/-- Python `str` of a scalar. -/
def pyStr : Scalar → String
  | Scalar.i n => toString n
  | Scalar.s t => t

/-- Python `str` of an optional scalar (`str(None) = "None"`). -/
def pyStrOpt : Option Scalar → String
  | none => "None"
  | some v => pyStr v

/-- Whether `needle` matches at the head of `hay`. -/
def matchesAt : List Char → List Char → Bool
  | [], _ => true
  | _ :: _, [] => false
  | a :: as, b :: bs => a = b && matchesAt as bs

/-- Python substring containment `needle in hay` on character lists. -/
def hasSub (needle : List Char) : List Char → Bool
  | [] => needle.isEmpty
  | c :: rest => matchesAt needle (c :: rest) || hasSub needle rest

/-- Replacement of one entry during a Python dictionary update: an entry
with the updated key receives the new value in place. -/
def dInsRep {β : Type} (k : String) (v : β) (p : String × β) : String × β :=
  if p.1 == k then (k, v) else p

/-- Python dictionary insertion `d[k] = v`: an existing key keeps its
position and gets the new value, a fresh key is appended. -/
def dIns {β : Type} (d : List (String × β)) (k : String) (v : β) :
    List (String × β) :=
  if d.any (fun p => p.1 == k) then d.map (dInsRep k v)
  else d ++ [(k, v)]

/-- Python dictionary lookup `d[k]` (first entry with the key). -/
def lookupA {β : Type} : List (String × β) → String → Option β
  | [], _ => none
  | p :: rest, k => if p.1 == k then some p.2 else lookupA rest k

/-- An entry of the matrix produced by `to_numpy`. -/
inductive NpVal where
  | nan : NpVal
  | num : Int → NpVal
deriving DecidableEq, Repr

/-- `to_numpy` normalization of one cell value: numbers pass through,
`None` and non-numeric values become NaN. -/
def npEntry : Option Scalar → NpVal
  | some (Scalar.i n) => NpVal.num n
  | some (Scalar.s _) => NpVal.nan
  | none => NpVal.nan

/-- The flag `contains_nonumeric_values` of `to_numpy`: set only when a
cell value is present (`is not None`) but not a `Number`. -/
def npHasNonNumeric (s : Sheet) : Bool :=
  (List.range s.nrows).any fun r =>
    (List.range s.ncols).any fun c =>
      match (s.cell r c).value with
      | some (Scalar.s _) => true
      | _ => false

/-- `Serialization.to_numpy`: the dense matrix of exported values. -/
def to_numpy (s : Sheet) : List (List NpVal) :=
  (List.range s.nrows).map fun r =>
    (List.range s.ncols).map fun c => npEntry ((s.cell r c).value)

/-- The event trace of a `to_numpy` call: possible subset warning, the
row-major reads, then the coercion warning when the flag was set. -/
def to_numpy_trace (s : Sheet) : List Ev :=
  subsetPre s ++ rowMajorReads s ++
    (if npHasNonNumeric s then [Ev.warn coercionMsg] else [])

/-- A value inside the per-cell record of `to_dictionary`: parse text or
help text (`txt`), the `value` entry, or the `description` entry. -/
inductive RV where
  | txt : String → RV
  | val : Option Scalar → RV
  | desc : Option String → RV
deriving DecidableEq, Repr

/-- The per-cell record `pseudolang_and_val`. -/
abbrev Record := List (String × RV)

/-- A value of the per-primary-label dictionary `y_values`: the secondary
dictionary under the `rows`/`columns` key, or a help-text string. -/
inductive XE where
  | d : List (String × Record) → XE
  | t : String → XE
deriving DecidableEq, Repr

/-- The dictionary stored under one primary label. -/
abbrev XEntry := List (String × XE)

/-- The primary-label dictionary of `to_dictionary`. -/
abbrev Outer := List (String × XEntry)

/-- A top-level value of the `to_dictionary` output: the nested value
dictionary, the variables dictionary, or a label array. -/
inductive TopV where
  | o : Outer → TopV
  | v : List (String × Scalar × String) → TopV
  | labels : List String → TopV
deriving DecidableEq, Repr

/-- The whole `to_dictionary` output dictionary. -/
abbrev Top := List (String × TopV)

/-- Keyword arguments of `to_dictionary` other than `by_row`. -/
structure DictArgs where
  languages : Option (List String)
  languages_pseudonyms : Option (List String)
  spaces_replacement : String
  skip_nan_cell : Bool
  nan_replacement : Option Scalar

/-- The resolved language list (`languages` or `cell_indices.languages`). -/
def dictLangs (s : Sheet) (a : DictArgs) : List String :=
  a.languages.getD s.ci.languages

/-- `languages_used`: pseudonyms when supplied, languages otherwise. -/
def dictLangsUsed (s : Sheet) (a : DictArgs) : List String :=
  a.languages_pseudonyms.getD (dictLangs s a)

/-- The sanity check of `to_dictionary`: pseudonyms supplied with a length
different from the language list. -/
def dictMismatch (s : Sheet) (a : DictArgs) : Bool :=
  match a.languages_pseudonyms with
  | none => false
  | some ps => ps.length != (dictLangs s a).length

/-- Row labels after the export-offset slice and space replacement. -/
def rowsAxisLabels (s : Sheet) (a : DictArgs) : List String :=
  (s.ci.rows_labels.drop s.export_offset.1).map
    fun label => replaceSpaces label a.spaces_replacement

/-- Column labels after the export-offset slice and space replacement. -/
def colsAxisLabels (s : Sheet) (a : DictArgs) : List String :=
  (s.ci.columns_labels.drop s.export_offset.2).map
    fun label => replaceSpaces label a.spaces_replacement

/-- Rows help text after the export-offset slice. -/
def rowsAxisHelp (s : Sheet) : Option (List String) :=
  s.ci.rows_help_text.map fun ht => ht.drop s.export_offset.1

/-- Columns help text after the export-offset slice. -/
def colsAxisHelp (s : Sheet) : Option (List String) :=
  s.ci.columns_help_text.map fun ht => ht.drop s.export_offset.2

/-- The cell selected in the inner loop of `to_dictionary` for primary
index `ix` and secondary index `iy`. -/
def dictCell (s : Sheet) (by_row : Bool) (ix iy : Nat) : Cell :=
  if by_row then s.cell ix iy else s.cell iy ix

/-- The `continue` condition of the inner loop: the cell value is `None`
and `skip_nan_cell` is set. -/
def dictSkip (s : Sheet) (a : DictArgs) (by_row : Bool) (ix iy : Nat) : Bool :=
  ((dictCell s by_row ix iy).value == none) && a.skip_nan_cell

/-- The record `pseudolang_and_val` built for one cell, including the
inner-axis `help_text` entry added after insertion. -/
def dictRecord (s : Sheet) (a : DictArgs) (by_row : Bool) (ix iy : Nat) :
    Record :=
  let cell := dictCell s by_row ix iy
  let cv := match cell.value with
    | none => a.nan_replacement
    | some v => some v
  let langs := dictLangs s a
  let used := dictLangsUsed s a
  let base := (List.range langs.length).foldl
    (fun d i => dIns d (used.getD i "") (RV.txt (cell.parse (langs.getD i ""))))
    []
  let withVal := dIns base "value" (RV.val cv)
  let withDesc := dIns withVal "description" (RV.desc cell.description)
  match (if by_row then colsAxisHelp s else rowsAxisHelp s) with
  | none => withDesc
  | some hl => dIns withDesc "help_text" (RV.txt (hl.getD iy ""))

/-- The secondary dictionary `y_values[y_start_key]` built by the inner
loop for primary index `ix`. -/
def dictInnerDict (s : Sheet) (a : DictArgs) (by_row : Bool) (ix : Nat) :
    List (String × Record) :=
  let yRange := if by_row then s.ncols else s.nrows
  let y := if by_row then colsAxisLabels s a else rowsAxisLabels s a
  (List.range yRange).foldl
    (fun acc iy =>
      if dictSkip s a by_row ix iy then acc
      else dIns acc (y.getD iy "") (dictRecord s a by_row ix iy))
    []

/-- The value stored under one primary label: the `y_values` dictionary,
plus the primary-axis `help_text` entry added after insertion. -/
def dictXEntry (s : Sheet) (a : DictArgs) (by_row : Bool) (ix : Nat) :
    XEntry :=
  let base : XEntry :=
    [((if by_row then "columns" else "rows"), XE.d (dictInnerDict s a by_row ix))]
  match (if by_row then rowsAxisHelp s else colsAxisHelp s) with
  | none => base
  | some hl => dIns base "help_text" (XE.t (hl.getD ix ""))

/-- The primary-label dictionary `values[x_start_key]`. -/
def dictOuter (s : Sheet) (a : DictArgs) (by_row : Bool) : Outer :=
  let xRange := if by_row then s.nrows else s.ncols
  let x := if by_row then rowsAxisLabels s a else colsAxisLabels s a
  (List.range xRange).foldl
    (fun acc ix => dIns acc (x.getD ix "") (dictXEntry s a by_row ix))
    []

/-- The complete output dictionary of a successful `to_dictionary` call:
the nested values under the primary key, then `variables`, `row-labels`
and `column-labels` (the label arrays are the same in both orientations,
as in the source where `x`/`y` swap together with `by_row`). -/
def dictTop (s : Sheet) (a : DictArgs) (by_row : Bool) : Top :=
  let xKey := if by_row then "rows" else "columns"
  let top0 : Top := [(xKey, TopV.o (dictOuter s a by_row))]
  let top1 := dIns top0 "variables" (TopV.v s.variables_dict)
  if by_row then
    dIns (dIns top1 "row-labels" (TopV.labels (rowsAxisLabels s a)))
      "column-labels" (TopV.labels (colsAxisLabels s a))
  else
    dIns (dIns top1 "row-labels" (TopV.labels (rowsAxisLabels s a)))
      "column-labels" (TopV.labels (colsAxisLabels s a))

/-- `Serialization.to_dictionary`: either the invalid-argument error for a
pseudonym length mismatch, or the nested output dictionary. -/
def to_dictionary (s : Sheet) (by_row : Bool) (a : DictArgs) :
    Except String Top :=
  if dictMismatch s a then
    Except.error
      "Language pseudonyms does not have the same size as the language array!"
  else
    Except.ok (dictTop s a by_row)

/-- The cell reads performed by the nested loops of `to_dictionary`. -/
def dictReads (s : Sheet) (by_row : Bool) : List Ev :=
  let xRange := if by_row then s.nrows else s.ncols
  let yRange := if by_row then s.ncols else s.nrows
  (List.range xRange).flatMap fun ix =>
    (List.range yRange).map fun iy =>
      if by_row then Ev.read ix iy else Ev.read iy ix

/-- The event trace of a `to_dictionary` call: the subset warning first,
then (unless the call raised) the cell reads. -/
def to_dictionary_trace (s : Sheet) (by_row : Bool) (a : DictArgs) :
    List Ev :=
  subsetPre s ++ (if dictMismatch s a then [] else dictReads s by_row)

/-- The needle of the file-suffix check of `to_excel`. -/
def xlsxNeedle : List Char := ".xlsx".data

/-- Python `file_path[-5:]` on character lists. -/
def lastFive (l : List Char) : List Char := l.drop (l.length - 5)

/-- The `".xlsx" in file_path[-5:]` check of `to_excel`. -/
def xlsxOk (fp : String) : Bool := hasSub xlsxNeedle (lastFive fp.data)

/-- Keyword arguments of `to_excel`. -/
structure ExcelArgs where
  sheet_name : String
  spaces_replacement : String
  label_row_format : List (String × String)
  label_column_format : List (String × String)
  variables_sheet_name : Option String
  vh_name : String
  vh_value : String
  vh_description : String

/-- A value written into the variables sheet. -/
inductive XVal where
  | s : String → XVal
  | v : Scalar → XVal
deriving DecidableEq, Repr

/-- One call into `xlsxwriter` performed by `to_excel`, in order:
workbook-level name definitions, variables-sheet writes (with an optional
format dictionary), data-cell writes, and label writes (`rowLabel` tells
row labels from column labels). -/
inductive XOp where
  | defineName : String → String → XOp
  | vsWrite : Nat → Nat → XVal → Option (List (String × String)) → XOp
  | write : Nat → Nat → Scalar → Option (List (String × String)) → XOp
  | writeFormula : Nat → Nat → String → Scalar →
      Option (List (String × String)) → XOp
  | labelWrite : Nat → Nat → String → Bool → XOp
deriving DecidableEq, Repr

/-- The variable-registration section of `to_excel` (lines before the data
loop): named constants without a variables sheet, or the dedicated sheet
with header, per-variable rows and named references. -/
def excelVarOps (s : Sheet) (a : ExcelArgs) : List XOp :=
  if s.variables_dict.isEmpty then []
  else
    match a.variables_sheet_name with
    | none =>
        s.variables_dict.map fun v => XOp.defineName v.1 (pyStr v.2.1)
    | some vsn =>
        [XOp.vsWrite 0 0 (XVal.s a.vh_name) (some a.label_column_format),
         XOp.vsWrite 0 1 (XVal.s a.vh_value) (some a.label_column_format),
         XOp.vsWrite 0 2 (XVal.s a.vh_description) (some a.label_column_format)]
        ++ (List.range s.variables_dict.length).flatMap fun k =>
          let v := s.variables_dict.getD k ("", Scalar.i 0, "")
          [XOp.vsWrite (k + 1) 0 (XVal.s v.1) none,
           XOp.vsWrite (k + 1) 1 (XVal.v v.2.1) none,
           XOp.vsWrite (k + 1) 2 (XVal.s v.2.2) none,
           XOp.defineName v.1 ("=" ++ vsn ++ "!$B$" ++ toString (k + 2))]

/-- The label offset of the data loop: 1 when labels are appended. -/
def excelOff (s : Sheet) : Nat := if s.ci.excel_append_labels then 1 else 0

/-- The data-cell writes of `to_excel`: a write per cell whose value is
not `None`, as a literal for value-only cells and as a formula with the
cached value otherwise. -/
def excelDataOps (s : Sheet) : List XOp :=
  (List.range s.nrows).flatMap fun r =>
    (List.range s.ncols).filterMap fun c =>
      let cell := s.cell r c
      match cell.value with
      | none => none
      | some v =>
          let fmt := if cell.excel_format.length > 0
            then some cell.excel_format else none
          some (match cell.cell_type with
            | CellType.value_only =>
                XOp.write (r + excelOff s) (c + excelOff s) v fmt
            | CellType.computational =>
                XOp.writeFormula (r + excelOff s) (c + excelOff s)
                  (cell.parse "excel") v fmt)

/-- The label writes of `to_excel`, present when labels are appended. -/
def excelLabelOps (s : Sheet) (a : ExcelArgs) : List XOp :=
  if s.ci.excel_append_labels then
    ((List.range s.ncols).map fun c =>
      XOp.labelWrite 0 (c + 1)
        (replaceSpaces (s.ci.columns_labels.getD (c + s.export_offset.2) "")
          a.spaces_replacement) false)
    ++ ((List.range s.nrows).map fun r =>
      XOp.labelWrite (r + 1) 0
        (replaceSpaces (s.ci.rows_labels.getD (r + s.export_offset.1) "")
          a.spaces_replacement) true)
  else []

/-- `Serialization.to_excel`: the invalid-argument errors of the sanity
checks, or the ordered list of writer calls. -/
def to_excel (s : Sheet) (fp : String) (a : ExcelArgs) :
    Except String (List XOp) :=
  if xlsxOk fp = false then
    Except.error "Suffix of the file has to be '.xslx'!"
  else if a.sheet_name.length < 1 then
    Except.error "Sheet name has to be non-empty string!"
  else
    Except.ok (excelVarOps s a ++ excelDataOps s ++ excelLabelOps s a)

/-- The event trace of a `to_excel` call: nothing when a sanity check
raises (the checks precede the warning), otherwise the subset warning,
the workbook acquisition, then the row-major cell reads. -/
def to_excel_trace (s : Sheet) (fp : String) (a : ExcelArgs) : List Ev :=
  if xlsxOk fp = false then []
  else if a.sheet_name.length < 1 then []
  else subsetPre s ++ [Ev.openwb] ++ rowMajorReads s

/-- `Serialization.to_string_of_values`: the Python list literal. -/
def to_string_of_values (s : Sheet) : String :=
  let body := (List.range s.nrows).foldl
    (fun ex r =>
      let ex := ex ++ "["
      let ex := (List.range s.ncols).foldl
        (fun ex2 c =>
          let ex2 := ex2 ++ pyStrOpt ((s.cell r c).value)
          if c < s.ncols - 1 then ex2 ++ ", " else ex2) ex
      let ex := ex ++ "]"
      if r < s.nrows - 1 then ex ++ ",\n" else ex)
    "["
  body ++ "]"

/-- The event trace of a `to_string_of_values` call. -/
def to_string_of_values_trace (s : Sheet) : List Ev :=
  subsetPre s ++ rowMajorReads s

/-- `Serialization.to_2d_list`: the nested list of cell values. -/
def to_2d_list (s : Sheet) : List (List (Option Scalar)) :=
  (List.range s.nrows).map fun r =>
    (List.range s.ncols).map fun c => (s.cell r c).value

/-- The event trace of a `to_2d_list` call. -/
def to_2d_list_trace (s : Sheet) : List Ev :=
  subsetPre s ++ rowMajorReads s

/-- `Serialization.to_csv`: the delimited-text export. -/
def to_csv (s : Sheet)
    (spaces_replacement top_right_corner_text sep line_terminator na_rep :
      String) : String :=
  let header := (List.range s.ncols).foldl
    (fun ex c =>
      let ex := ex ++ replaceSpaces
        (s.ci.columns_labels.getD (c + s.export_offset.2) "")
        spaces_replacement
      if c < s.ncols - 1 then ex ++ sep else ex)
    (top_right_corner_text ++ sep)
  let headerT := if 0 < s.nrows then header ++ line_terminator else header
  (List.range s.nrows).foldl
    (fun ex r =>
      let ex := ex ++ replaceSpaces
        (s.ci.rows_labels.getD (r + s.export_offset.1) "")
        spaces_replacement ++ sep
      let ex := (List.range s.ncols).foldl
        (fun ex2 c =>
          let v := match (s.cell r c).value with
            | none => na_rep
            | some sv => pyStr sv
          let ex2 := ex2 ++ v
          if c < s.ncols - 1 then ex2 ++ sep else ex2) ex
      if r < s.nrows - 1 then ex ++ line_terminator else ex)
    headerT

/-- The event trace of a `to_csv` call. -/
def to_csv_trace (s : Sheet) : List Ev :=
  subsetPre s ++ rowMajorReads s

/-- `Serialization.to_markdown`: the markup-table export. -/
def to_markdown (s : Sheet)
    (spaces_replacement top_right_corner_text na_rep : String) : String :=
  let line1 := (List.range s.ncols).foldl
    (fun ex c =>
      let ex := ex ++ "*" ++ replaceSpaces
        (s.ci.columns_labels.getD (c + s.export_offset.2) "")
        spaces_replacement ++ "*"
      if c < s.ncols - 1 then ex ++ " | "
      else if c = s.ncols - 1 then ex ++ " |\n"
      else ex)
    ("| " ++ top_right_corner_text ++ " |")
  let line2 := (List.range s.ncols).foldl
    (fun ex c =>
      let ex := ex ++ "----|"
      if c = s.ncols - 1 then ex ++ "\n" else ex)
    (line1 ++ "|----|")
  (List.range s.nrows).foldl
    (fun ex r =>
      let ex := ex ++ "| *" ++ replaceSpaces
        (s.ci.rows_labels.getD (r + s.export_offset.1) "")
        spaces_replacement ++ "*" ++ " | "
      (List.range s.ncols).foldl
        (fun ex2 c =>
          let v := match (s.cell r c).value with
            | none => na_rep
            | some sv => pyStr sv
          let ex2 := ex2 ++ v
          if c < s.ncols - 1 then ex2 ++ " | "
          else if c = s.ncols - 1 then ex2 ++ " |\n"
          else ex2) ex)
    line2

/-- The event trace of a `to_markdown` call. -/
def to_markdown_trace (s : Sheet) : List Ev :=
  subsetPre s ++ rowMajorReads s

/-- `Serialization.to_html_table`: the hypertext export.  Note the row of
row labels sources its tooltip from `rows_help_text` indexed with the
COLUMN component of the export offset (`export_offset[1]`), exactly as
the source does. -/
def to_html_table (s : Sheet)
    (spaces_replacement top_right_corner_text na_rep : String)
    (language_for_description : Option String) : String :=
  let headerRow :=
    (List.range s.ncols).foldl
      (fun ex c =>
        let col := s.ci.columns_labels.getD (c + s.export_offset.2) ""
        let title_attr := match s.ci.columns_help_text with
          | some ht =>
              " title=\"" ++ ht.getD (c + s.export_offset.2) "" ++ "\""
          | none => ""
        ex ++ "<th>" ++ "<a href=\"javascript:;\" " ++ title_attr ++ ">"
          ++ replaceSpaces col spaces_replacement ++ "</a>" ++ "</th>")
      ("<tr>" ++ "<th>" ++ top_right_corner_text ++ "</th>") ++ "</tr>"
  let dataRow := fun r =>
    let title_attr := match s.ci.rows_help_text with
      | some ht =>
          " title=\"" ++ ht.getD (r + s.export_offset.2) "" ++ "\""
      | none => ""
    let lab :=
      "<tr>" ++ "<td>" ++ "<a href=\"javascript:;\" " ++ title_attr ++ ">"
        ++ replaceSpaces (s.ci.rows_labels.getD (r + s.export_offset.1) "")
            spaces_replacement ++ "</a>" ++ "</td>"
    (List.range s.ncols).foldl
      (fun ex c =>
        let cell := s.cell r c
        let tattr := match cell.description with
          | some d => " title=\"" ++ d ++ "\""
          | none =>
              match language_for_description with
              | some lang =>
                  match cell.cell_type with
                  | CellType.computational =>
                      " title=\"" ++ cell.constructing_words lang ++ "\""
                  | CellType.value_only => ""
              | none => ""
        let v := match cell.value with
          | none => na_rep
          | some sv => pyStr sv
        ex ++ "<td>" ++ "<a href=\"javascript:;\" " ++ tattr ++ ">"
          ++ v ++ "</a>" ++ "</td>")
      lab ++ "</tr>"
  "<table>" ++ headerRow
    ++ String.join ((List.range s.nrows).map dataRow) ++ "</table>"

/-- The event trace of a `to_html_table` call. -/
def to_html_table_trace (s : Sheet) : List Ev :=
  subsetPre s ++ rowMajorReads s

/-- The outer dictionary stored at key `k` of the output. -/
def topOuter (t : Top) (k : String) : Outer :=
  match lookupA t k with
  | some (TopV.o o) => o
  | _ => []

/-- Whether key `k` of the output holds the nested value dictionary. -/
def topKeyIsOuter (t : Top) (k : String) : Bool :=
  match lookupA t k with
  | some (TopV.o _) => true
  | _ => false

/-- The secondary dictionary stored at key `k` of a primary entry. -/
def innerOf (xe : XEntry) (k : String) : List (String × Record) :=
  match lookupA xe k with
  | some (XE.d l) => l
  | _ => []

/-- The multiset of `(row label, column label, record)` associations of a
`by_row = true` output (outer key `rows`, inner key `columns`). -/
def triplesRM (t : Top) : Multiset (String × String × Record) :=
  ↑((topOuter t "rows").flatMap fun p =>
      (innerOf p.2 "columns").map fun q => (p.1, q.1, q.2))

/-- The multiset of `(row label, column label, record)` associations of a
`by_row = false` output (outer key `columns`, inner key `rows`). -/
def triplesCM (t : Top) : Multiset (String × String × Record) :=
  ↑((topOuter t "columns").flatMap fun p =>
      (innerOf p.2 "rows").map fun q => (q.1, p.1, q.2))

/-- Whether a writer call writes a worksheet data cell at `(r, c)`. -/
def writesCellAt : XOp → Nat → Nat → Bool
  | XOp.write r c _ _, r', c' => r == r' && c == c'
  | XOp.writeFormula r c _ _ _, r', c' => r == r' && c == c'
  | _, _, _ => false

/-- The subset-warning discipline of one trace: the subset warning occurs
exactly once when `b` (the `export_subset` flag) is set and never
otherwise, and from the first cell read onwards no subset warning occurs
(so every subset warning precedes every cell read). -/
def subsetWarnDiscipline (tr : List Ev) (b : Bool) : Bool :=
  (tr.count (Ev.warn subsetMsg) == if b then 1 else 0) &&
  ((tr.dropWhile fun e => !(isRead e)).all fun e => !(e == Ev.warn subsetMsg))

/-- A value-only cell with the given value and trivial metadata. -/
def mkCell (v : Option Scalar) : Cell :=
  { value := v, parse := fun _ => "", description := none,
    cell_type := CellType.value_only, excel_format := [],
    constructing_words := fun _ => "" }

/-- Plain 2x2 index metadata without help text. -/
def ciPlain : CellIndices :=
  { rows_labels := ["r0", "r1"], columns_labels := ["c0", "c1"],
    rows_help_text := none, columns_help_text := none,
    languages := ["excel"], excel_append_labels := false }

/-- The 2x2 grid `[[7, None], [9, 10]]` of the specification example. -/
def exGrid : Sheet :=
  { nrows := 2, ncols := 2,
    cell := fun r c =>
      mkCell ((([[some (Scalar.i 7), none],
                 [some (Scalar.i 9), some (Scalar.i 10)]].getD r []).getD
        c none)),
    ci := ciPlain, export_offset := (0, 0), export_subset := false,
    variables_dict := [] }

/-- A 1x1 grid exported with row offset 1 and rows help text, exercising
the help-text indexing of `to_html_table`. -/
def exHtml : Sheet :=
  { nrows := 1, ncols := 1,
    cell := fun _ _ => mkCell (some (Scalar.i 5)),
    ci := { rows_labels := ["r0", "r1"], columns_labels := ["c0"],
            rows_help_text := some ["h0", "h1"], columns_help_text := none,
            languages := ["excel"], excel_append_labels := false },
    export_offset := (1, 0), export_subset := false, variables_dict := [] }

/-- A 1x2 grid whose second cell value is `None`. -/
def exNoneCell : Sheet :=
  { nrows := 1, ncols := 2,
    cell := fun _ c => mkCell (if c = 0 then some (Scalar.i 7) else none),
    ci := ciPlain, export_offset := (0, 0), export_subset := false,
    variables_dict := [] }

/-- A 1x1 grid with help text on both axes. -/
def exHelp : Sheet :=
  { nrows := 1, ncols := 1,
    cell := fun _ _ => mkCell (some (Scalar.i 1)),
    ci := { rows_labels := ["r0"], columns_labels := ["c0"],
            rows_help_text := some ["rh"], columns_help_text := some ["ch"],
            languages := ["excel"], excel_append_labels := false },
    export_offset := (0, 0), export_subset := false, variables_dict := [] }

/-- A 2x1 grid with duplicate row labels and `export_subset` set. -/
def exDup : Sheet :=
  { nrows := 2, ncols := 1,
    cell := fun r _ => mkCell (some (Scalar.i (Int.ofNat r + 3))),
    ci := { rows_labels := ["dup", "dup"], columns_labels := ["c0"],
            rows_help_text := none, columns_help_text := none,
            languages := ["excel"], excel_append_labels := false },
    export_offset := (0, 0), export_subset := true, variables_dict := [] }

/-- Default `to_dictionary` keyword arguments. -/
def aDef : DictArgs :=
  { languages := none, languages_pseudonyms := none,
    spaces_replacement := " ", skip_nan_cell := false,
    nan_replacement := none }

/-- `to_dictionary` arguments with a single pseudonym. -/
def aOnePseudo : DictArgs :=
  { languages := some ["d1", "d2"], languages_pseudonyms := some ["p1"],
    spaces_replacement := " ", skip_nan_cell := false,
    nan_replacement := none }

/-- Default `to_excel` keyword arguments. -/
def eaDef : ExcelArgs :=
  { sheet_name := "Results", spaces_replacement := " ",
    label_row_format := [("bold", "True")],
    label_column_format := [("bold", "True")],
    variables_sheet_name := none, vh_name := "Name", vh_value := "Value",
    vh_description := "Description" }

/-! ### Association-list lemmas for the Python-dictionary model -/

theorem dIns_fresh {β : Type} (d : List (String × β)) (k : String) (v : β)
    (h : d.any (fun p => p.1 == k) = false) : dIns d k v = d ++ [(k, v)] := by
  simp [dIns, h]

theorem lookupA_append {β : Type} (d1 d2 : List (String × β)) (k : String) :
    lookupA (d1 ++ d2) k
      = match lookupA d1 k with
        | some v => some v
        | none => lookupA d2 k := by
  induction d1 with
  | nil => simp [lookupA]
  | cons p rest ih =>
      by_cases hp : (p.1 == k) = true
      · simp [lookupA, hp]
      · simp only [Bool.not_eq_true] at hp
        simp [lookupA, hp, ih]

theorem lookupA_eq_none {β : Type} (d : List (String × β)) (k : String)
    (h : d.any (fun p => p.1 == k) = false) : lookupA d k = none := by
  induction d with
  | nil => rfl
  | cons p rest ih =>
      simp only [List.any_cons, Bool.or_eq_false_iff] at h
      simp [lookupA, h.1, ih h.2]

theorem dInsRep_of_beq {β : Type} {k : String} {v : β} {p : String × β}
    (hp : (p.1 == k) = true) : dInsRep k v p = (k, v) := by
  simp [dInsRep, hp]

theorem dInsRep_of_ne {β : Type} {k : String} {v : β} {p : String × β}
    (hp : (p.1 == k) = false) : dInsRep k v p = p := by
  simp [dInsRep, hp]

theorem lookupA_map_rep {β : Type} (d : List (String × β)) (k : String)
    (v : β) (h : d.any (fun p => p.1 == k) = true) :
    lookupA (d.map (dInsRep k v)) k = some v := by
  induction d with
  | nil => simp at h
  | cons p rest ih =>
      rw [List.map_cons]
      by_cases hp : (p.1 == k) = true
      · rw [dInsRep_of_beq hp]
        simp [lookupA]
      · have hp0 : (p.1 == k) = false := by simpa using hp
        rw [dInsRep_of_ne hp0]
        simp only [lookupA]
        rw [if_neg (by simp [hp0])]
        apply ih
        simpa [hp0] using h

theorem lookupA_map_dInsRep {β : Type} (d : List (String × β))
    (k k' : String) (v : β) (h : (k == k') = false) :
    lookupA (d.map (dInsRep k v)) k' = lookupA d k' := by
  induction d with
  | nil => rfl
  | cons p rest ih =>
      rw [List.map_cons]
      by_cases hp : (p.1 == k) = true
      · rw [dInsRep_of_beq hp]
        have hpk : p.1 = k := eq_of_beq hp
        simp only [lookupA]
        rw [if_neg (by simp [h]), if_neg (by rw [hpk]; simp [h]), ih]
      · have hp0 : (p.1 == k) = false := by simpa using hp
        rw [dInsRep_of_ne hp0]
        simp only [lookupA]
        by_cases hpk' : (p.1 == k') = true
        · rw [if_pos hpk', if_pos hpk']
        · rw [if_neg hpk', if_neg hpk', ih]

theorem lookupA_dIns_self {β : Type} (d : List (String × β)) (k : String)
    (v : β) : lookupA (dIns d k v) k = some v := by
  cases hany : (d.any fun p => p.1 == k) with
  | true =>
      rw [dIns, if_pos hany]
      exact lookupA_map_rep d k v hany
  | false =>
      rw [dIns_fresh d k v hany, lookupA_append, lookupA_eq_none d k hany]
      simp [lookupA]

theorem lookupA_dIns_ne {β : Type} (d : List (String × β)) (k k' : String)
    (v : β) (h : (k == k') = false) :
    lookupA (dIns d k v) k' = lookupA d k' := by
  cases hany : (d.any fun p => p.1 == k) with
  | true =>
      rw [dIns, if_pos hany]
      exact lookupA_map_dInsRep d k k' v h
  | false =>
      rw [dIns_fresh d k v hany, lookupA_append]
      have hlast : lookupA [(k, v)] k' = none := by
        simp [lookupA, h]
      rw [hlast]
      cases lookupA d k' <;> rfl

theorem map_dInsRep_keys {β : Type} (d : List (String × β)) (k : String)
    (v : β) : (d.map (dInsRep k v)).map Prod.fst = d.map Prod.fst := by
  induction d with
  | nil => rfl
  | cons p rest ih =>
      rw [List.map_cons, List.map_cons, List.map_cons, ih]
      cases hp : (p.1 == k) with
      | true =>
          rw [dInsRep_of_beq hp]
          have : p.1 = k := eq_of_beq hp
          simp [this]
      | false => rw [dInsRep_of_ne hp]

theorem keys_nodup_dIns {β : Type} (d : List (String × β)) (k : String)
    (v : β) (hnd : (d.map Prod.fst).Nodup) :
    ((dIns d k v).map Prod.fst).Nodup := by
  cases hany : (d.any fun p => p.1 == k) with
  | true =>
      rw [dIns, if_pos hany, map_dInsRep_keys]
      exact hnd
  | false =>
      rw [dIns_fresh d k v hany, List.map_append]
      rw [List.nodup_append]
      refine ⟨hnd, List.nodup_singleton k, ?_⟩
      intro x hx hx2
      simp only [List.map_cons, List.map_nil, List.mem_singleton] at hx2
      subst hx2
      rw [List.mem_map] at hx
      obtain ⟨p, hp, hpx⟩ := hx
      have hall := List.any_eq_false.mp hany p hp
      simp only [beq_iff_eq] at hall
      exact hall (by rw [hpx])

theorem keys_nodup_foldl_dIns {β : Type} (l : List Nat) (key : Nat → String)
    (val : Nat → β) :
    ∀ d : List (String × β), (d.map Prod.fst).Nodup →
      (((l.foldl (fun acc i => dIns acc (key i) (val i)) d)).map
        Prod.fst).Nodup := by
  induction l with
  | nil => intro d h; simpa using h
  | cons a l ih =>
      intro d h
      rw [List.foldl_cons]
      exact ih _ (keys_nodup_dIns _ _ _ h)

theorem lookupA_foldl_dIns {β : Type} (l : List Nat) (key : Nat → String)
    (val : Nat → β) (d : List (String × β)) (k : String) :
    lookupA (l.foldl (fun acc i => dIns acc (key i) (val i)) d) k
      = match (l.filter fun i => key i == k).getLast? with
        | some i => some (val i)
        | none => lookupA d k := by
  induction l using List.reverseRecOn with
  | nil => simp
  | append_singleton l a ih =>
      rw [List.foldl_append, List.foldl_cons, List.foldl_nil,
        List.filter_append]
      cases ha : (key a == k) with
      | true =>
          have hfa : List.filter (fun i => key i == k) [a] = [a] := by
            simp [ha]
          rw [hfa, List.getLast?_concat]
          have hk : key a = k := eq_of_beq ha
          rw [← hk]
          exact lookupA_dIns_self _ _ _
      | false =>
          have hfa : List.filter (fun i => key i == k) [a] = [] := by
            simp [ha]
          rw [hfa, List.append_nil, lookupA_dIns_ne _ _ _ _ ha, ih]

theorem count_keys_of_lookup {β : Type} (d : List (String × β)) (k : String)
    (hnd : (d.map Prod.fst).Nodup) (h : (lookupA d k).isSome = true) :
    (d.map Prod.fst).count k = 1 := by
  induction d with
  | nil => simp [lookupA] at h
  | cons p rest ih =>
      rw [List.map_cons] at hnd ⊢
      cases hp : (p.1 == k) with
      | true =>
          have hpk : p.1 = k := eq_of_beq hp
          have h0 : (rest.map Prod.fst).count k = 0 := by
            apply List.count_eq_zero_of_not_mem
            have := (List.nodup_cons.mp hnd).1
            rw [hpk] at this
            exact this
          rw [List.count_cons, h0, hpk]
          simp
      | false =>
          have hpk : p.1 ≠ k := by simpa using hp
          simp only [lookupA, hp] at h
          rw [List.count_cons, ih (List.nodup_cons.mp hnd).2 (by simpa using h)]
          simp [hpk, Ne.symm hpk]

theorem foldl_dIns_skip {β : Type} (l : List Nat)
    (f : Nat → Option (String × β)) :
    ∀ d : List (String × β),
      (l.filterMap fun i => (f i).map Prod.fst).Nodup →
      (∀ i ∈ l, ∀ p, f i = some p →
        (d.any fun q => q.1 == p.1) = false) →
      l.foldl
        (fun acc i => (f i).elim acc fun p => dIns acc p.1 p.2) d
        = d ++ l.filterMap f := by
  induction l with
  | nil =>
      intro d _ _
      simp
  | cons a l ih =>
      intro d hnd hdisj
      rw [List.foldl_cons, List.filterMap_cons]
      cases hfa : f a with
      | none =>
          simp only [hfa, Option.elim_none]
          apply ih d
          · simpa [List.filterMap_cons, hfa] using hnd
          · intro i hi p hp
            exact hdisj i (List.mem_cons_of_mem a hi) p hp
      | some p =>
          simp only [hfa, Option.elim_some]
          rw [dIns_fresh d p.1 p.2 (hdisj a (List.mem_cons_self a l) p hfa)]
          have hnd2 := hnd
          rw [List.filterMap_cons, hfa] at hnd2
          simp only [Option.map_some'] at hnd2
          have hhead := (List.nodup_cons.mp hnd2).1

          rw [ih (d ++ [p]) (List.nodup_cons.mp hnd2).2 ?disj]
          · rw [List.append_assoc]
            rfl
          case disj =>
            intro i hi q hq
            rw [List.any_append]
            have h1 : (d.any fun r => r.1 == q.1) = false :=
              hdisj i (List.mem_cons_of_mem a hi) q hq
            have h2 : ([p].any fun r => r.1 == q.1) = false := by
              have hq1 : q.1 ∈ l.filterMap fun i => (f i).map Prod.fst := by
                rw [List.mem_filterMap]
                exact ⟨i, hi, by rw [hq]; rfl⟩
              have : p.1 ≠ q.1 := fun he => hhead (he ▸ hq1)
              simp [this]
            rw [h1, h2]
            rfl

theorem filterMap_some_eq_map {α γ : Type} (l : List α) (g : α → γ) :
    (l.filterMap fun x => some (g x)) = l.map g := by
  induction l with
  | nil => rfl
  | cons a l ih => simp [ih]

theorem foldl_dIns_map {β : Type} (l : List Nat) (key : Nat → String)
    (val : Nat → β) (hnd : (l.map key).Nodup) :
    l.foldl (fun acc i => dIns acc (key i) (val i)) []
      = l.map fun i => (key i, val i) := by
  have h := foldl_dIns_skip l (fun i => some (key i, val i)) []
    (by
      have he : (l.filterMap fun i =>
          ((some (key i, val i)).map Prod.fst)) = l.map key := by
        exact filterMap_some_eq_map l key
      rw [he]
      exact hnd)
    (by intro i _ p _; rfl)
  rw [filterMap_some_eq_map] at h
  simpa using h

theorem filterMap_ite_sublist {α γ : Type} (l : List α) (p : α → Bool)
    (g : α → γ) :
    List.Sublist (l.filterMap fun x => if p x then none else some (g x))
      (l.map g) := by
  induction l with
  | nil => simp
  | cons a l ih =>
      rw [List.filterMap_cons, List.map_cons]
      cases hp : p a with
      | true =>
          rw [if_pos rfl]
          exact ih.cons (g a)
      | false =>
          rw [if_neg Bool.false_ne_true]
          exact ih.cons₂ (g a)

theorem filterMap_eq_flatMap_toList {α γ : Type} (l : List α)
    (g : α → Option γ) :
    l.filterMap g = l.flatMap fun a => (g a).toList := by
  induction l with
  | nil => rfl
  | cons a l ih => cases hg : g a <;> simp [hg, ih]

theorem coe_flatMap_swap {γ : Type} (m n : Nat) (f : Nat → Nat → Option γ) :
    (↑((List.range m).flatMap fun i => (List.range n).filterMap fun j =>
        f i j) : Multiset γ)
      = ↑((List.range n).flatMap fun j => (List.range m).filterMap fun i =>
          f i j) := by
  have h1 : ∀ (l : List Nat) (g : Nat → Option γ),
      (↑(l.filterMap g) : Multiset γ)
        = Multiset.bind (↑l) fun a => ((g a).toList : Multiset γ) := by
    intro l g
    rw [filterMap_eq_flatMap_toList]
    exact (Multiset.coe_bind l fun a => ((g a).toList : List γ)).symm
  calc (↑((List.range m).flatMap fun i => (List.range n).filterMap fun j =>
          f i j) : Multiset γ)
      = Multiset.bind ↑(List.range m)
          (fun i => ↑((List.range n).filterMap fun j => f i j)) :=
        (Multiset.coe_bind _ _).symm
    _ = Multiset.bind ↑(List.range m)
          (fun i => Multiset.bind ↑(List.range n)
            (fun j => ((f i j).toList : Multiset γ))) := by
        exact congrArg _ (funext fun i => h1 _ _)
    _ = Multiset.bind ↑(List.range n)
          (fun j => Multiset.bind ↑(List.range m)
            (fun i => ((f i j).toList : Multiset γ))) :=
        Multiset.bind_bind _ _
    _ = Multiset.bind ↑(List.range n)
          (fun j => ↑((List.range m).filterMap fun i => f i j)) := by
        exact congrArg _ (funext fun j => (h1 _ _).symm)
    _ = ↑((List.range n).flatMap fun j => (List.range m).filterMap fun i =>
          f i j) := Multiset.coe_bind _ _

theorem getLast?_eq_of_mem_of_ub (l : List Nat) (x : Nat)
    (hp : l.Pairwise (· < ·)) (hx : x ∈ l) (hub : ∀ y ∈ l, y ≤ x) :
    l.getLast? = some x := by
  induction l with
  | nil => simp at hx
  | cons a l ih =>
      cases l with
      | nil =>
          rw [List.mem_singleton] at hx
          subst hx
          rfl
      | cons b t =>
          have hmem : x ∈ b :: t := by
            rcases List.mem_cons.mp hx with h | h
            · subst h
              have hab : x < b := (List.pairwise_cons.mp hp).1 b (by simp)
              have hbx : b ≤ x := hub b (by simp)
              omega
            · exact h
          rw [List.getLast?_cons_cons]
          exact ih (List.pairwise_cons.mp hp).2 hmem
            (fun y hy => hub y (List.mem_cons_of_mem a hy))

/-! ### Trace lemmas for the subset-warning discipline -/

theorem all_dropWhile {α : Type} (l : List α) (p q : α → Bool)
    (h : l.all p = true) : (l.dropWhile q).all p = true := by
  induction l with
  | nil => rfl
  | cons a l ih =>
      rw [List.all_cons, Bool.and_eq_true] at h
      rw [List.dropWhile_cons]
      cases hq : q a with
      | true => simpa using ih h.2
      | false => simp [h.1, h.2]

theorem discipline_of_clean (s : Sheet) (rest : List Ev)
    (h : rest.all (fun e => !(e == Ev.warn subsetMsg)) = true) :
    subsetWarnDiscipline (subsetPre s ++ rest) s.export_subset = true := by
  have hcount : rest.count (Ev.warn subsetMsg) = 0 := by
    rw [List.count_eq_zero]
    intro hmem
    have := List.all_eq_true.mp h _ hmem
    simp at this
  have hall := all_dropWhile rest (fun e => !(e == Ev.warn subsetMsg))
    (fun e => !(isRead e)) h
  rw [subsetWarnDiscipline]
  cases hs : s.export_subset with
  | false =>
      have hpre : subsetPre s = [] := by
        rw [subsetPre, hs]
        rfl
      rw [hpre, List.nil_append, hcount, hall]
      rfl
  | true =>
      have hpre : subsetPre s = [Ev.warn subsetMsg] := by
        rw [subsetPre, hs]
        rfl
      rw [hpre, List.singleton_append]
      have h1 : List.count (Ev.warn subsetMsg)
          (Ev.warn subsetMsg :: rest) = 1 := by
        simp [List.count_cons, hcount]
      rw [h1]
      have h2 : List.dropWhile (fun e => !(isRead e))
          (Ev.warn subsetMsg :: rest)
          = List.dropWhile (fun e => !(isRead e)) rest := by
        rw [List.dropWhile_cons]
        simp [isRead]
      rw [h2, hall]
      rfl

theorem rowMajorReads_clean (s : Sheet) (m : String) :
    (rowMajorReads s).all (fun e => !(e == Ev.warn m)) = true := by
  rw [List.all_eq_true]
  intro e he
  rw [rowMajorReads, List.mem_flatMap] at he
  obtain ⟨r, _, he⟩ := he
  rw [List.mem_map] at he
  obtain ⟨c, _, rfl⟩ := he
  simp

theorem dictReads_clean (s : Sheet) (by_row : Bool) (m : String) :
    (dictReads s by_row).all (fun e => !(e == Ev.warn m)) = true := by
  rw [List.all_eq_true]
  intro e he
  rw [dictReads, List.mem_flatMap] at he
  obtain ⟨ix, _, he⟩ := he
  rw [List.mem_map] at he
  obtain ⟨iy, _, rfl⟩ := he
  cases by_row <;> simp

/-! ### Structural lemmas about the `to_dictionary` output -/

theorem option_map_ite {γ δ : Type} (c : Bool) (x : γ) (h : γ → δ) :
    Option.map h (if c then none else some x)
      = if c then none else some (h x) := by
  cases c <;> rfl

theorem topOuter_dictTop_true (s : Sheet) (a : DictArgs) :
    topOuter (dictTop s a true) "rows" = dictOuter s a true := rfl

theorem topOuter_dictTop_false (s : Sheet) (a : DictArgs) :
    topOuter (dictTop s a false) "columns" = dictOuter s a false := rfl

theorem dictCell_flip (s : Sheet) (i j : Nat) :
    dictCell s false j i = dictCell s true i j := rfl

theorem dictSkip_flip (s : Sheet) (a : DictArgs) (i j : Nat) :
    dictSkip s a false j i = dictSkip s a true i j := rfl

theorem rowsAxisHelp_none (s : Sheet) (hrh : s.ci.rows_help_text = none) :
    rowsAxisHelp s = none := by
  rw [rowsAxisHelp, hrh]
  rfl

theorem colsAxisHelp_none (s : Sheet) (hch : s.ci.columns_help_text = none) :
    colsAxisHelp s = none := by
  rw [colsAxisHelp, hch]
  rfl

theorem dictRecord_flip (s : Sheet) (a : DictArgs)
    (hrh : s.ci.rows_help_text = none) (hch : s.ci.columns_help_text = none)
    (i j : Nat) : dictRecord s a false j i = dictRecord s a true i j := by
  simp [dictRecord, dictCell, rowsAxisHelp_none s hrh,
    colsAxisHelp_none s hch]

theorem dictXEntry_true_no_help (s : Sheet) (a : DictArgs)
    (hrh : s.ci.rows_help_text = none) (ix : Nat) :
    dictXEntry s a true ix
      = [("columns", XE.d (dictInnerDict s a true ix))] := by
  simp [dictXEntry, rowsAxisHelp_none s hrh]

theorem dictXEntry_false_no_help (s : Sheet) (a : DictArgs)
    (hch : s.ci.columns_help_text = none) (ix : Nat) :
    dictXEntry s a false ix
      = [("rows", XE.d (dictInnerDict s a false ix))] := by
  simp [dictXEntry, colsAxisHelp_none s hch]

theorem innerOf_dictXEntry_true (s : Sheet) (a : DictArgs)
    (hrh : s.ci.rows_help_text = none) (ix : Nat) :
    innerOf (dictXEntry s a true ix) "columns" = dictInnerDict s a true ix := by
  rw [dictXEntry_true_no_help s a hrh ix]
  rfl

theorem innerOf_dictXEntry_false (s : Sheet) (a : DictArgs)
    (hch : s.ci.columns_help_text = none) (ix : Nat) :
    innerOf (dictXEntry s a false ix) "rows" = dictInnerDict s a false ix := by
  rw [dictXEntry_false_no_help s a hch ix]
  rfl

theorem dictOuter_true_eq (s : Sheet) (a : DictArgs)
    (hnd : ((List.range s.nrows).map
      fun i => (rowsAxisLabels s a).getD i "").Nodup) :
    dictOuter s a true = (List.range s.nrows).map fun ix =>
      ((rowsAxisLabels s a).getD ix "", dictXEntry s a true ix) := by
  show (List.range s.nrows).foldl
    (fun acc ix => dIns acc ((rowsAxisLabels s a).getD ix "")
      (dictXEntry s a true ix)) [] = _
  exact foldl_dIns_map _ _ _ hnd

theorem dictOuter_false_eq (s : Sheet) (a : DictArgs)
    (hnd : ((List.range s.ncols).map
      fun j => (colsAxisLabels s a).getD j "").Nodup) :
    dictOuter s a false = (List.range s.ncols).map fun ix =>
      ((colsAxisLabels s a).getD ix "", dictXEntry s a false ix) := by
  show (List.range s.ncols).foldl
    (fun acc ix => dIns acc ((colsAxisLabels s a).getD ix "")
      (dictXEntry s a false ix)) [] = _
  exact foldl_dIns_map _ _ _ hnd

theorem dictInnerDict_true_eq (s : Sheet) (a : DictArgs)
    (hnd : ((List.range s.ncols).map
      fun j => (colsAxisLabels s a).getD j "").Nodup) (ix : Nat) :
    dictInnerDict s a true ix
      = (List.range s.ncols).filterMap fun iy =>
          if dictSkip s a true ix iy then none
          else some ((colsAxisLabels s a).getD iy "",
            dictRecord s a true ix iy) := by
  have hbody : (fun (acc : List (String × Record)) iy =>
      if dictSkip s a true ix iy then acc
      else dIns acc ((colsAxisLabels s a).getD iy "")
        (dictRecord s a true ix iy))
    = (fun acc iy =>
        (if dictSkip s a true ix iy then none
          else some ((colsAxisLabels s a).getD iy "",
            dictRecord s a true ix iy)).elim acc
          fun p => dIns acc p.1 p.2) := by
    funext acc iy
    cases dictSkip s a true ix iy <;> rfl
  show (List.range s.ncols).foldl
    (fun acc iy =>
      if dictSkip s a true ix iy then acc
      else dIns acc ((colsAxisLabels s a).getD iy "")
        (dictRecord s a true ix iy)) [] = _
  rw [hbody]
  have h := foldl_dIns_skip (List.range s.ncols)
    (fun iy => if dictSkip s a true ix iy then none
      else some ((colsAxisLabels s a).getD iy "",
        dictRecord s a true ix iy))
    []
    (by
      simp only [option_map_ite]
      exact (filterMap_ite_sublist (List.range s.ncols)
        (fun iy => dictSkip s a true ix iy)
        (fun iy => (colsAxisLabels s a).getD iy "")).nodup hnd)
    (by intro i _ p _; rfl)
  rw [List.nil_append] at h
  exact h

theorem dictInnerDict_false_eq (s : Sheet) (a : DictArgs)
    (hnd : ((List.range s.nrows).map
      fun i => (rowsAxisLabels s a).getD i "").Nodup) (ix : Nat) :
    dictInnerDict s a false ix
      = (List.range s.nrows).filterMap fun iy =>
          if dictSkip s a false ix iy then none
          else some ((rowsAxisLabels s a).getD iy "",
            dictRecord s a false ix iy) := by
  have hbody : (fun (acc : List (String × Record)) iy =>
      if dictSkip s a false ix iy then acc
      else dIns acc ((rowsAxisLabels s a).getD iy "")
        (dictRecord s a false ix iy))
    = (fun acc iy =>
        (if dictSkip s a false ix iy then none
          else some ((rowsAxisLabels s a).getD iy "",
            dictRecord s a false ix iy)).elim acc
          fun p => dIns acc p.1 p.2) := by
    funext acc iy
    cases dictSkip s a false ix iy <;> rfl
  show (List.range s.nrows).foldl
    (fun acc iy =>
      if dictSkip s a false ix iy then acc
      else dIns acc ((rowsAxisLabels s a).getD iy "")
        (dictRecord s a false ix iy)) [] = _
  rw [hbody]
  have h := foldl_dIns_skip (List.range s.nrows)
    (fun iy => if dictSkip s a false ix iy then none
      else some ((rowsAxisLabels s a).getD iy "",
        dictRecord s a false ix iy))
    []
    (by
      simp only [option_map_ite]
      exact (filterMap_ite_sublist (List.range s.nrows)
        (fun iy => dictSkip s a false ix iy)
        (fun iy => (rowsAxisLabels s a).getD iy "")).nodup hnd)
    (by intro i _ p _; rfl)
  rw [List.nil_append] at h
  exact h

/-! ### Indexing helpers -/

theorem getD_map_range {α : Type} (n i : Nat) (f : Nat → α) (d : α)
    (h : i < n) : ((List.range n).map f).getD i d = f i := by
  rw [List.getD_eq_getElem?_getD, List.getElem?_map, List.getElem?_range h]
  rfl

theorem to_numpy_trace_coercion_count (s : Sheet) :
    (to_numpy_trace s).count (Ev.warn coercionMsg)
      = if npHasNonNumeric s then 1 else 0 := by
  rw [to_numpy_trace, List.count_append, List.count_append]
  have h1 : (subsetPre s).count (Ev.warn coercionMsg) = 0 := by
    rw [subsetPre]
    cases s.export_subset <;> decide
  have h2 : (rowMajorReads s).count (Ev.warn coercionMsg) = 0 := by
    rw [List.count_eq_zero]
    intro hmem
    have := List.all_eq_true.mp (rowMajorReads_clean s coercionMsg) _ hmem
    simp at this
  rw [h1, h2]
  cases npHasNonNumeric s <;> simp

/-! ### Claim theorems -/

/-- Claim C1, counterexample to the claim as stated: on the 2x2 grid
`[[7, None], [9, 10]]` the matrix is `[[7, NaN], [9, 10]]` as the claim
says, but ZERO coercion notices fire (the claim demands exactly one),
because `to_numpy` replaces a `None` value by NaN without setting the
`contains_nonumeric_values` flag. -/
theorem C1_counterexample :
    to_numpy exGrid = [[NpVal.num 7, NpVal.nan], [NpVal.num 9, NpVal.num 10]]
      ∧ (to_numpy_trace exGrid).count (Ev.warn coercionMsg) = 0 := by
  constructor <;> rfl

/-- Claim C1 (amended): in `to_numpy`, `None` and any non-numeric value
map to NaN; the coercion diagnostic fires at most once per call, and it
fires exactly when some cell holds a non-`None` non-numeric value — a
`None` cell is replaced by NaN silently. -/
theorem C1_amended (s : Sheet) :
    (to_numpy_trace s).count (Ev.warn coercionMsg) ≤ 1 ∧
    ((to_numpy_trace s).count (Ev.warn coercionMsg) = 1 ↔
      ∃ r c, r < s.nrows ∧ c < s.ncols ∧
        ∃ t, (s.cell r c).value = some (Scalar.s t)) ∧
    (∀ r c, r < s.nrows → c < s.ncols → (s.cell r c).value = none →
      ((to_numpy s).getD r []).getD c (NpVal.num 0) = NpVal.nan) := by
  refine ⟨?_, ?_, ?_⟩
  · rw [to_numpy_trace_coercion_count]
    cases npHasNonNumeric s <;> simp
  · rw [to_numpy_trace_coercion_count]
    constructor
    · intro h
      cases hf : npHasNonNumeric s with
      | false => rw [hf] at h; simp at h
      | true =>
          have hex := hf
          rw [npHasNonNumeric, List.any_eq_true] at hex
          obtain ⟨r, hr, hrest⟩ := hex
          rw [List.any_eq_true] at hrest
          obtain ⟨c, hc, hmatch⟩ := hrest
          rw [List.mem_range] at hr hc
          refine ⟨r, c, hr, hc, ?_⟩
          cases hv : (s.cell r c).value with
          | none => rw [hv] at hmatch; simp at hmatch
          | some sc =>
              cases sc with
              | i n => rw [hv] at hmatch; simp at hmatch
              | s t => exact ⟨t, rfl⟩
    · rintro ⟨r, c, hr, hc, t, hv⟩
      have hf : npHasNonNumeric s = true := by
        rw [npHasNonNumeric, List.any_eq_true]
        refine ⟨r, List.mem_range.mpr hr, ?_⟩
        rw [List.any_eq_true]
        refine ⟨c, List.mem_range.mpr hc, ?_⟩
        rw [hv]
      rw [hf]
      rfl
  · intro r c hr hc hv
    rw [to_numpy, getD_map_range _ _ _ _ hr, getD_map_range _ _ _ _ hc, hv]
    rfl

/-- Claim C1 witness: the amended theorem applied to the example grid —
the `None` cell at position (0, 1) is rendered as NaN. -/
theorem C1_witness :
    ((to_numpy exGrid).getD 0 []).getD 1 (NpVal.num 0) = NpVal.nan :=
  (C1_amended exGrid).2.2 0 1 (by decide) (by decide) rfl

/-- Claim C2: the code bug evaluated.  On a 1x1 grid exported with
`export_offset = (1, 0)` and rows help text `["h0", "h1"]`, the exported
row label is `rows_labels[0 + 1] = "r1"`, but its tooltip is sourced from
`rows_help_text[0 + export_offset[1]] = "h0"` — the COLUMN component of
the offset — instead of `"h1"` as the claimed per-axis slicing requires.
The produced markup pairs label `r1` with tooltip `h0`. -/
theorem C2_code_bug_eval :
    to_html_table exHtml " " "Sheet" "" none
      = "<table><tr><th>Sheet</th><th><a href=\"javascript:;\" >c0</a></th></tr><tr><td><a href=\"javascript:;\"  title=\"h0\">r1</a></td><td><a href=\"javascript:;\" >5</a></td></tr></table>" := by
  rfl

/-- Claim C8: `to_numpy` returns a matrix of exactly the exported shape,
and every position holds the numeric value of its cell or NaN. -/
theorem C8_matrix_shape (s : Sheet) :
    (to_numpy s).length = s.nrows ∧
    (∀ r, r < s.nrows → ((to_numpy s).getD r []).length = s.ncols) ∧
    (∀ r c, r < s.nrows → c < s.ncols →
      ((to_numpy s).getD r []).getD c (NpVal.num 0)
        = match (s.cell r c).value with
          | some (Scalar.i n) => NpVal.num n
          | _ => NpVal.nan) := by
  refine ⟨?_, ?_, ?_⟩
  · rw [to_numpy, List.length_map, List.length_range]
  · intro r hr
    rw [to_numpy, getD_map_range _ _ _ _ hr, List.length_map,
      List.length_range]
  · intro r c hr hc
    rw [to_numpy, getD_map_range _ _ _ _ hr, getD_map_range _ _ _ _ hc]
    cases hv : (s.cell r c).value with
    | none => rfl
    | some sc => cases sc <;> rfl

/-- Claim C8 witness: the shape theorem applied to the example grid at
position (1, 0), which holds the number 9. -/
theorem C8_witness :
    ((to_numpy exGrid).getD 1 []).getD 0 (NpVal.num 0)
      = match (exGrid.cell 1 0).value with
        | some (Scalar.i n) => NpVal.num n
        | _ => NpVal.nan :=
  (C8_matrix_shape exGrid).2.2 1 0 (by decide) (by decide)

/-- Claim C4, counterexample to the claim as stated: on a 1x1 grid with
help text on both axes, the cell record under `by_row = true` carries the
COLUMN help text while under `by_row = false` it carries the ROW help
text, so the two calls do not carry the same multiset of
`(row label, column label) -> record` associations. -/
theorem C4_counterexample :
    (to_dictionary exHelp true aDef).toOption.map triplesRM
      ≠ (to_dictionary exHelp false aDef).toOption.map triplesCM := by
  decide

/-- Claim C4 (amended): when neither axis defines help text and the
exported row labels and column labels are each pairwise distinct,
`to_dictionary` with `by_row = true` and `by_row = false` carry the same
multiset of `(row label, column label) -> record` associations, with the
`rows`/`columns` nesting keys swapped (the outer key is `rows` in the
first orientation and `columns` in the second).  When help text is
present, each record additionally holds a `help_text` entry sourced from
the inner (secondary) axis, which therefore swaps with `by_row`. -/
theorem C4_amended (s : Sheet) (a : DictArgs)
    (hm : dictMismatch s a = false)
    (hrh : s.ci.rows_help_text = none) (hch : s.ci.columns_help_text = none)
    (hrd : ((List.range s.nrows).map
      fun i => (rowsAxisLabels s a).getD i "").Nodup)
    (hcd : ((List.range s.ncols).map
      fun j => (colsAxisLabels s a).getD j "").Nodup) :
    (to_dictionary s true a).toOption.map triplesRM
      = (to_dictionary s false a).toOption.map triplesCM ∧
    (to_dictionary s true a).toOption.map
      (fun t => topKeyIsOuter t "rows") = some true ∧
    (to_dictionary s true a).toOption.map
      (fun t => lookupA t "columns") = some none ∧
    (to_dictionary s false a).toOption.map
      (fun t => topKeyIsOuter t "columns") = some true ∧
    (to_dictionary s false a).toOption.map
      (fun t => lookupA t "rows") = some none := by
  have hok : ∀ b, to_dictionary s b a = Except.ok (dictTop s a b) := by
    intro b
    rw [to_dictionary, if_neg (by simp [hm])]
  refine ⟨?_, ?_, ?_, ?_, ?_⟩
  · rw [hok true, hok false]
    show some (triplesRM (dictTop s a true))
      = some (triplesCM (dictTop s a false))
    refine congrArg some ?_
    rw [triplesRM, triplesCM, topOuter_dictTop_true, topOuter_dictTop_false]
    rw [dictOuter_true_eq s a hrd, dictOuter_false_eq s a hcd]
    rw [List.flatMap_map, List.flatMap_map]
    simp only [innerOf_dictXEntry_true s a hrh,
      innerOf_dictXEntry_false s a hch]
    simp only [dictInnerDict_true_eq s a hcd, dictInnerDict_false_eq s a hrd]
    simp only [List.map_filterMap, option_map_ite]
    simp only [dictSkip_flip, dictRecord_flip s a hrh hch]
    exact coe_flatMap_swap s.nrows s.ncols
      (fun i j => if dictSkip s a true i j then none
        else some ((rowsAxisLabels s a).getD i "",
          (colsAxisLabels s a).getD j "", dictRecord s a true i j))
  · rw [hok true]
    rfl
  · rw [hok true]
    rfl
  · rw [hok false]
    rfl
  · rw [hok false]
    rfl

/-- Claim C4 witness: the amended transpose law applied to the 2x2
example grid, whose labels are distinct and which has no help text. -/
theorem C4_witness :
    (to_dictionary exGrid true aDef).toOption.map triplesRM
      = (to_dictionary exGrid false aDef).toOption.map triplesCM :=
  (C4_amended exGrid aDef (by decide) rfl rfl (by decide) (by decide)).1

/-- Claim C9: in `to_dictionary` with `by_row = true`, when two exported
rows share an equal label and `i2` is the highest exported index carrying
that label, the output holds exactly one entry for the label, and that
entry is the one built for primary index `i2` — the data of the
lower-index duplicates is absent. -/
theorem C9_duplicate_labels (s : Sheet) (a : DictArgs) (lab : String)
    (i1 i2 : Nat) (h12 : i1 < i2) (h2 : i2 < s.nrows)
    (hl1 : (rowsAxisLabels s a).getD i1 "" = lab)
    (hl2 : (rowsAxisLabels s a).getD i2 "" = lab)
    (hlast : ∀ j, i2 < j → j < s.nrows →
      (rowsAxisLabels s a).getD j "" ≠ lab)
    (hm : dictMismatch s a = false) :
    (to_dictionary s true a).toOption.map
        (fun t => (lookupA (topOuter t "rows") lab,
          ((topOuter t "rows").map Prod.fst).count lab))
      = some (some (dictXEntry s a true i2), 1) := by
  have hok : to_dictionary s true a = Except.ok (dictTop s a true) := by
    rw [to_dictionary, if_neg (by simp [hm])]
  rw [hok]
  show some (lookupA (topOuter (dictTop s a true) "rows") lab,
    ((topOuter (dictTop s a true) "rows").map Prod.fst).count lab) = _
  rw [topOuter_dictTop_true]
  have hOuter : dictOuter s a true
      = (List.range s.nrows).foldl
          (fun acc ix => dIns acc ((rowsAxisLabels s a).getD ix "")
            (dictXEntry s a true ix)) [] := rfl
  have hfilter : ((List.range s.nrows).filter
      fun i => ((rowsAxisLabels s a).getD i "") == lab).getLast?
        = some i2 := by
    apply getLast?_eq_of_mem_of_ub
    · exact (List.pairwise_lt_range s.nrows).sublist (List.filter_sublist _)
    · rw [List.mem_filter]
      refine ⟨List.mem_range.mpr h2, ?_⟩
      rw [hl2]
      simp
    · intro y hy
      rw [List.mem_filter] at hy
      obtain ⟨hyr, hyl⟩ := hy
      rw [List.mem_range] at hyr
      by_contra hgt
      push_neg at hgt
      exact hlast y hgt hyr (by simpa using hyl)
  have hlk : lookupA ((List.range s.nrows).foldl
      (fun acc ix => dIns acc ((rowsAxisLabels s a).getD ix "")
        (dictXEntry s a true ix)) []) lab
      = some (dictXEntry s a true i2) := by
    rw [lookupA_foldl_dIns, hfilter]
  have hnodup := keys_nodup_foldl_dIns (List.range s.nrows)
    (fun ix => (rowsAxisLabels s a).getD ix "")
    (fun ix => dictXEntry s a true ix) [] (by simp)
  have hcnt := count_keys_of_lookup _ lab hnodup (by rw [hlk]; rfl)
  rw [hOuter, hlk, hcnt]

/-- Claim C9 witness: the duplicate-label theorem applied to a 2x1 grid
whose two rows are both labeled `dup`; the surviving entry is the one of
row index 1. -/
theorem C9_witness :
    (to_dictionary exDup true aDef).toOption.map
        (fun t => (lookupA (topOuter t "rows") "dup",
          ((topOuter t "rows").map Prod.fst).count "dup"))
      = some (some (dictXEntry exDup aDef true 1), 1) :=
  C9_duplicate_labels exDup aDef "dup" 0 1 (by decide) (by decide)
    (by decide) (by decide)
    (fun j h1 h2 => absurd h2 (Nat.not_lt.mpr h1)) (by decide)

/-- Claim C10: in `to_dictionary` with `export_subset` set, the subset
warning is emitted before the pseudonym-length validation, so a call that
fails that validation still emits exactly one subset warning and produces
no output dictionary. -/
theorem C10_warn_before_validation (s : Sheet) (by_row : Bool)
    (a : DictArgs) (hsub : s.export_subset = true)
    (hm : dictMismatch s a = true) :
    (to_dictionary s by_row a).toOption = none ∧
    to_dictionary_trace s by_row a = [Ev.warn subsetMsg] := by
  constructor
  · rw [to_dictionary, if_pos hm]
    rfl
  · rw [to_dictionary_trace, if_pos hm, List.append_nil, subsetPre, hsub]
    rfl

/-- Claim C10 witness: a subset-exporting grid with a one-element
pseudonym list against two dialects warns once, then fails. -/
theorem C10_witness :
    (to_dictionary exDup true aOnePseudo).toOption = none ∧
    to_dictionary_trace exDup true aOnePseudo = [Ev.warn subsetMsg] :=
  C10_warn_before_validation exDup true aOnePseudo rfl (by decide)

/-- Claim C6: a `to_dictionary` call with a pseudonym list whose length
differs from the resolved language list fails with the invalid-argument
error (no output dictionary is produced) and its trace contains no cell
read. -/
theorem C6_pseudonym_mismatch (s : Sheet) (by_row : Bool) (a : DictArgs)
    (h : ∃ ps, a.languages_pseudonyms = some ps ∧
      ps.length ≠ (dictLangs s a).length) :
    (to_dictionary s by_row a).toOption = none ∧
    (to_dictionary_trace s by_row a).all (fun ev => !(isRead ev)) = true := by
  obtain ⟨ps, hps, hlen⟩ := h
  have hm : dictMismatch s a = true := by
    rw [dictMismatch, hps]
    simpa using hlen
  constructor
  · rw [to_dictionary, if_pos hm]
    rfl
  · rw [to_dictionary_trace, if_pos hm, List.append_nil, subsetPre]
    cases s.export_subset <;> rfl

/-- Claim C6 witness: dialects `["d1", "d2"]` with a single pseudonym
fail before any cell of the example grid is read. -/
theorem C6_witness :
    (to_dictionary exGrid true aOnePseudo).toOption = none ∧
    (to_dictionary_trace exGrid true aOnePseudo).all
      (fun ev => !(isRead ev)) = true :=
  C6_pseudonym_mismatch exGrid true aOnePseudo ⟨["p1"], rfl, by decide⟩

theorem matchesAt_iff_eq (n : List Char) : ∀ (h : List Char),
    h.length ≤ n.length → (matchesAt n h = true ↔ n = h) := by
  induction n with
  | nil =>
      intro h hle
      cases h with
      | nil => simp [matchesAt]
      | cons c t => simp at hle
  | cons a as ih =>
      intro h hle
      cases h with
      | nil => simp [matchesAt]
      | cons b bs =>
          have hle2 : bs.length ≤ as.length := by simpa using hle
          rw [matchesAt, Bool.and_eq_true]
          constructor
          · rintro ⟨hab, hmt⟩
            have h1 : a = b := of_decide_eq_true hab
            have h2 : as = bs := (ih bs hle2).mp hmt
            rw [h1, h2]
          · intro he
            injection he with h1 h2
            exact ⟨decide_eq_true (by rw [h1]),
              (ih bs hle2).mpr (by rw [h2])⟩

theorem hasSub_iff_eq (n : List Char) : ∀ (h : List Char),
    h.length ≤ n.length → (hasSub n h = true ↔ h = n) := by
  intro h
  induction h with
  | nil =>
      intro _
      rw [hasSub, List.isEmpty_iff]
      exact ⟨Eq.symm, Eq.symm⟩
  | cons c rest ih =>
      intro hle
      rw [hasSub, Bool.or_eq_true]
      have hle2 : rest.length ≤ n.length := by
        simp at hle
        omega
      constructor
      · rintro (hmt | hsub)
        · exact ((matchesAt_iff_eq n (c :: rest) hle).mp hmt).symm
        · exfalso
          have heq := (ih hle2).mp hsub
          rw [heq] at hle
          simp at hle
      · intro he
        left
        exact (matchesAt_iff_eq n (c :: rest) hle).mpr he.symm

theorem xlsxOk_iff (fp : String) :
    xlsxOk fp = true ↔ lastFive fp.data = xlsxNeedle := by
  rw [xlsxOk]
  apply hasSub_iff_eq
  rw [lastFive]
  have h5 : xlsxNeedle.length = 5 := rfl
  rw [h5, List.length_drop]
  omega

/-- Claim C7: a `to_excel` call whose file path does not end in `.xlsx`
(case-sensitive check on the last five characters) or whose sheet name is
empty fails with the invalid-argument error before the workbook writer is
acquired: the call produces no workbook and its trace contains no
workbook-acquisition event (indeed it is empty), so no file output
occurs. -/
theorem C7_excel_validation (s : Sheet) (fp : String) (a : ExcelArgs)
    (h : lastFive fp.data ≠ xlsxNeedle ∨ a.sheet_name = "") :
    (to_excel s fp a).toOption = none ∧
    Ev.openwb ∉ to_excel_trace s fp a := by
  have htr : to_excel_trace s fp a = [] ∧
      (to_excel s fp a).toOption = none := by
    cases hx : xlsxOk fp with
    | false =>
        constructor
        · rw [to_excel_trace, if_pos hx]
        · rw [to_excel, if_pos hx]
          rfl
    | true =>
        have hname : a.sheet_name = "" := by
          rcases h with h1 | h2
          · exact absurd ((xlsxOk_iff fp).mp hx) h1
          · exact h2
        have hlen : a.sheet_name.length < 1 := by
          rw [hname]
          decide
        constructor
        · rw [to_excel_trace, if_neg (by simp [hx]), if_pos hlen]
        · rw [to_excel, if_neg (by simp [hx]), if_pos hlen]
          rfl
  refine ⟨htr.2, ?_⟩
  rw [htr.1]
  simp

/-- Claim C7 witness: a call with the path `bad.txt` (which does not end
in `.xlsx`) yields no workbook and acquires no writer resource. -/
theorem C7_witness :
    (to_excel exGrid "bad.txt" eaDef).toOption = none ∧
    Ev.openwb ∉ to_excel_trace exGrid "bad.txt" eaDef :=
  C7_excel_validation exGrid "bad.txt" eaDef (Or.inl (by decide))

theorem excelVarOps_writes_false (s : Sheet) (a : ExcelArgs) (x y : Nat) :
    ∀ op ∈ excelVarOps s a, writesCellAt op x y = false := by
  intro op hop
  rw [excelVarOps] at hop
  by_cases he : s.variables_dict.isEmpty = true
  · rw [if_pos he] at hop
    simp at hop
  · rw [if_neg he] at hop
    cases hv : a.variables_sheet_name with
    | none =>
        rw [hv] at hop
        rw [List.mem_map] at hop
        obtain ⟨v, _, rfl⟩ := hop
        rfl
    | some vsn =>
        rw [hv] at hop
        rw [List.mem_append] at hop
        rcases hop with hop | hop
        · simp only [List.mem_cons, List.not_mem_nil, or_false] at hop
          rcases hop with rfl | rfl | rfl <;> rfl
        · rw [List.mem_flatMap] at hop
          obtain ⟨k, _, hop⟩ := hop
          simp only [List.mem_cons, List.not_mem_nil, or_false] at hop
          rcases hop with rfl | rfl | rfl | rfl <;> rfl

theorem excelLabelOps_writes_false (s : Sheet) (a : ExcelArgs) (x y : Nat) :
    ∀ op ∈ excelLabelOps s a, writesCellAt op x y = false := by
  intro op hop
  rw [excelLabelOps] at hop
  by_cases he : s.ci.excel_append_labels = true
  · rw [if_pos he, List.mem_append] at hop
    rcases hop with hop | hop <;>
      · rw [List.mem_map] at hop
        obtain ⟨v, _, rfl⟩ := hop
        rfl
  · rw [if_neg he] at hop
    simp at hop

theorem excelDataOps_any_iff (s : Sheet) (r c : Nat)
    (hr : r < s.nrows) (hc : c < s.ncols) :
    (((excelDataOps s).any fun op =>
      writesCellAt op (r + excelOff s) (c + excelOff s)) = true)
      ↔ (s.cell r c).value ≠ none := by
  constructor
  · intro h
    rw [List.any_eq_true] at h
    obtain ⟨op, hop, hpred⟩ := h
    rw [excelDataOps, List.mem_flatMap] at hop
    obtain ⟨r2, hr2, hop⟩ := hop
    rw [List.mem_filterMap] at hop
    obtain ⟨c2, hc2, hfc⟩ := hop
    rw [List.mem_range] at hr2 hc2
    dsimp only at hfc
    cases hv2 : (s.cell r2 c2).value with
    | none =>
        rw [hv2] at hfc
        simp at hfc
    | some v2 =>
        rw [hv2] at hfc
        simp only [Option.some.injEq] at hfc
        have hrc : r2 = r ∧ c2 = c := by
          cases hct : (s.cell r2 c2).cell_type <;>
            · rw [hct] at hfc
              rw [← hfc] at hpred
              simp [writesCellAt] at hpred
              obtain ⟨hp1, hp2⟩ := hpred
              exact ⟨by omega, by omega⟩
        rw [hrc.1, hrc.2] at hv2
        rw [hv2]
        simp
  · intro hne
    obtain ⟨v, hv⟩ := Option.ne_none_iff_exists'.mp hne
    rw [List.any_eq_true]
    cases hct : (s.cell r c).cell_type with
    | value_only =>
        refine ⟨XOp.write (r + excelOff s) (c + excelOff s) v
          (if (s.cell r c).excel_format.length > 0
            then some ((s.cell r c).excel_format) else none), ?_, ?_⟩
        · rw [excelDataOps, List.mem_flatMap]
          refine ⟨r, List.mem_range.mpr hr, ?_⟩
          rw [List.mem_filterMap]
          refine ⟨c, List.mem_range.mpr hc, ?_⟩
          simp [hv, hct]
        · simp [writesCellAt]
    | computational =>
        refine ⟨XOp.writeFormula (r + excelOff s) (c + excelOff s)
          ((s.cell r c).parse "excel") v
          (if (s.cell r c).excel_format.length > 0
            then some ((s.cell r c).excel_format) else none), ?_, ?_⟩
        · rw [excelDataOps, List.mem_flatMap]
          refine ⟨r, List.mem_range.mpr hr, ?_⟩
          rw [List.mem_filterMap]
          refine ⟨c, List.mem_range.mpr hc, ?_⟩
          simp [hv, hct]
        · simp [writesCellAt]

/-- Claim C3, counterexample to the claim as stated: on a 1x2 grid whose
cell (0, 1) holds `None`, a valid `to_excel` call emits no write for that
cell, although (0, 1) lies inside the exported shape — so `to_excel` does
NOT write an entry for every cell. -/
theorem C3_counterexample :
    (match to_excel exNoneCell "out.xlsx" eaDef with
      | Except.ok ops => ops.any fun op => writesCellAt op 0 1
      | Except.error _ => true) = false := by
  decide

/-- Claim C3 (amended): a `to_excel` call that passes validation writes a
worksheet data entry for exactly the cells of the exported shape whose
value is not `None`; a `None`-valued cell is skipped even though
`to_excel` exposes no null-skipping configuration. -/
theorem C3_amended (s : Sheet) (fp : String) (a : ExcelArgs)
    (h1 : xlsxOk fp = true) (h2 : 1 ≤ a.sheet_name.length)
    (r c : Nat) (hr : r < s.nrows) (hc : c < s.ncols) :
    ((to_excel s fp a).toOption.map
        (fun ops => ops.any fun op =>
          writesCellAt op (r + excelOff s) (c + excelOff s))
      = some true) ↔ (s.cell r c).value ≠ none := by
  have hok : to_excel s fp a
      = Except.ok (excelVarOps s a ++ excelDataOps s
          ++ excelLabelOps s a) := by
    rw [to_excel, if_neg (by simp [h1]), if_neg (by omega)]
  rw [hok]
  show some ((excelVarOps s a ++ excelDataOps s ++ excelLabelOps s a).any
    fun op => writesCellAt op (r + excelOff s) (c + excelOff s))
      = some true ↔ _
  rw [Option.some.injEq]
  rw [List.any_append, List.any_append]
  have hva : ((excelVarOps s a).any fun op =>
      writesCellAt op (r + excelOff s) (c + excelOff s)) = false := by
    rw [List.any_eq_false]
    intro op hop
    simp [excelVarOps_writes_false s a _ _ op hop]
  have hlb : ((excelLabelOps s a).any fun op =>
      writesCellAt op (r + excelOff s) (c + excelOff s)) = false := by
    rw [List.any_eq_false]
    intro op hop
    simp [excelLabelOps_writes_false s a _ _ op hop]
  rw [hva, hlb]
  simp only [Bool.false_or, Bool.or_false]
  exact excelDataOps_any_iff s r c hr hc

/-- Claim C3 witness: on the example grid, the write-characterization at
cell (0, 0), which holds the number 7 and therefore receives a write. -/
theorem C3_witness :
    ((to_excel exGrid "out.xlsx" eaDef).toOption.map
        (fun ops => ops.any fun op =>
          writesCellAt op (0 + excelOff exGrid) (0 + excelOff exGrid))
      = some true) ↔ (exGrid.cell 0 0).value ≠ none :=
  C3_amended exGrid "out.xlsx" eaDef (by decide) (by decide) 0 0
    (by decide) (by decide)

/-- Claim C5, counterexample to the claim as stated: a `to_excel` call on
a subset-exporting sheet whose file path fails the suffix validation
raises before the warning step, so the subset warning fires ZERO times
although `export_subset` is true — the claim demands exactly one per
encoder call. -/
theorem C5_counterexample :
    exDup.export_subset = true ∧
    (to_excel_trace exDup "bad.txt" eaDef).count (Ev.warn subsetMsg)
      = 0 := by
  constructor <;> rfl

/-- Claim C5 (amended): for every encoder call, the subset data-loss
warning is sent exactly once when `export_subset` is true and never
otherwise, and always before any cell is read — except a `to_excel` call
that fails its file-suffix or sheet-name validation, which raises before
the warning step and emits nothing at all. -/
theorem C5_amended (s : Sheet) (fp : String) (ea : ExcelArgs)
    (by_row : Bool) (da : DictArgs) :
    subsetWarnDiscipline (to_csv_trace s) s.export_subset = true ∧
    subsetWarnDiscipline (to_markdown_trace s) s.export_subset = true ∧
    subsetWarnDiscipline (to_html_table_trace s) s.export_subset = true ∧
    subsetWarnDiscipline (to_string_of_values_trace s)
      s.export_subset = true ∧
    subsetWarnDiscipline (to_2d_list_trace s) s.export_subset = true ∧
    subsetWarnDiscipline (to_numpy_trace s) s.export_subset = true ∧
    subsetWarnDiscipline (to_dictionary_trace s by_row da)
      s.export_subset = true ∧
    (xlsxOk fp = true → 1 ≤ ea.sheet_name.length →
      subsetWarnDiscipline (to_excel_trace s fp ea)
        s.export_subset = true) ∧
    (xlsxOk fp = false ∨ ea.sheet_name.length < 1 →
      to_excel_trace s fp ea = []) := by
  refine ⟨?_, ?_, ?_, ?_, ?_, ?_, ?_, ?_, ?_⟩
  · exact discipline_of_clean s _ (rowMajorReads_clean s subsetMsg)
  · exact discipline_of_clean s _ (rowMajorReads_clean s subsetMsg)
  · exact discipline_of_clean s _ (rowMajorReads_clean s subsetMsg)
  · exact discipline_of_clean s _ (rowMajorReads_clean s subsetMsg)
  · exact discipline_of_clean s _ (rowMajorReads_clean s subsetMsg)
  · rw [to_numpy_trace, List.append_assoc]
    apply discipline_of_clean
    rw [List.all_append, Bool.and_eq_true]
    refine ⟨rowMajorReads_clean s subsetMsg, ?_⟩
    cases npHasNonNumeric s <;> decide
  · rw [to_dictionary_trace]
    apply discipline_of_clean
    cases hm : dictMismatch s da with
    | false => exact dictReads_clean s by_row subsetMsg
    | true => rfl
  · intro hx hn
    rw [to_excel_trace, if_neg (by simp [hx]), if_neg (by omega),
      List.append_assoc]
    apply discipline_of_clean
    rw [List.singleton_append, List.all_cons, Bool.and_eq_true]
    exact ⟨by decide, rowMajorReads_clean s subsetMsg⟩
  · intro h
    rcases h with hx | hn
    · rw [to_excel_trace, if_pos hx]
    · cases hx2 : xlsxOk fp with
      | false => rw [to_excel_trace, if_pos hx2]
      | true => rw [to_excel_trace, if_neg (by simp [hx2]), if_pos hn]

/-- Claim C5 witness: the discipline holds on a subset-exporting sheet
for the delimited-text trace and for a valid `to_excel` call. -/
theorem C5_witness :
    subsetWarnDiscipline (to_csv_trace exDup) exDup.export_subset = true ∧
    subsetWarnDiscipline (to_excel_trace exDup "out.xlsx" eaDef)
      exDup.export_subset = true :=
  ⟨(C5_amended exDup "out.xlsx" eaDef true aDef).1,
   (C5_amended exDup "out.xlsx" eaDef true aDef).2.2.2.2.2.2.2.1
     (by decide) (by decide)⟩

end PortableSpreadsheet
